import Mathlib

/-!
Shallow embedding of the TMDB poster importer (`src/code.py`, with
`src/code_2.py` an identical-core variant) and proofs about it.

The embedding translates, from the source:
  * `extract_movie_info` — the `.torrent`-stripping `str.replace`, the
    anchored year regex, the tag-removal `re.sub`, and `str.strip`;
  * the `requests` session mounted with
    `Retry(total=3, backoff_factor=0.5, status_forcelist=[429,500,502,503,504])`;
  * `search_movie`, `download_poster`, `process_single_torrent`,
    `process_torrents`.
Network and filesystem effects are made explicit: each `session.get` is fed a
stream of per-attempt results, and the state of the artifact file at the save
path is threaded through.  All definitions are structurally recursive so that
they evaluate inside the kernel.
-/

set_option maxRecDepth 100000
set_option maxHeartbeats 2000000

namespace PosterFetcher

/-! ## Python string primitives -/

/-- The codepoints of Python's whitespace class: exactly what `\s` matches
in `str` regex patterns and what `str.strip` strips — ASCII whitespace
(including the separator controls U+001C-U+001F), next-line, no-break space,
and the Unicode space separators. -/
def pySpaceCodes : List Nat :=
  [0x20, 0x09, 0x0a, 0x0b, 0x0c, 0x0d, 0x1c, 0x1d, 0x1e, 0x1f,
   0x85, 0xa0, 0x1680, 0x2000, 0x2001, 0x2002, 0x2003, 0x2004, 0x2005,
   0x2006, 0x2007, 0x2008, 0x2009, 0x200a, 0x2028, 0x2029, 0x202f, 0x205f, 0x3000]

/-- Python's whitespace test (`\s` / `str.strip`). -/
def isPySpace (c : Char) : Bool := pySpaceCodes.contains c.toNat

/-- The characters of the literal `'.torrent'`. -/
def torrentTok : List Char := ['.', 't', 'o', 'r', 'r', 'e', 'n', 't']

/-- `name = filename.replace('.torrent', '')` (line 39 of `code.py`).
Python `str.replace` makes a single left-to-right pass, deleting each
occurrence of the pattern and continuing after it without rescanning the
text already emitted. -/
def removeTorrent : List Char → List Char
  | '.' :: 't' :: 'o' :: 'r' :: 'r' :: 'e' :: 'n' :: 't' :: rest => removeTorrent rest
  | c :: rest => c :: removeTorrent rest
  | [] => []

/-- Step 1 of the extractor as a function on strings: the string handed to the
year/title regex. -/
def stripStep (s : String) : String := String.mk (removeTorrent s.data)

/-- Lexicographic comparison of character lists by code point — how Python
compares strings in `sorted`. -/
def charListLe : List Char → List Char → Bool
  | [], _ => true
  | _ :: _, [] => false
  | a :: as, b :: bs => if a < b then true else if b < a then false else charListLe as bs

/-- Python string comparison, as used by `sorted`. -/
def strLe (a b : String) : Bool := charListLe a.data b.data

/-- Substring test (`pat in s` in Python), scanning left to right. -/
def listContains (pat : List Char) : List Char → Bool
  | [] => pat.isEmpty
  | c :: rest => pat.isPrefixOf (c :: rest) || listContains pat rest

/-- Remove trailing Python whitespace (the right half of `str.strip`). -/
def rstripSp (l : List Char) : List Char :=
  (l.reverse.dropWhile isPySpace).reverse

/-- Python `str.strip`: drop whitespace at both ends. -/
def pyStrip (l : List Char) : List Char :=
  (rstripSp l).dropWhile isPySpace

/-! ## The year regex

`re.search(r'^(.+?)\s*[\(\[]?(\d{4})[\)\]]?', name)` (line 42 of `code.py`).
The pattern is anchored at the start; the first group is lazy and must be
non-empty; `.` does not match a newline.  After the group the engine matches
greedy `\s*`, an optional opening bracket and exactly four digits.  Because
the classes `\s`, `[\(\[]` and `\d` are pairwise disjoint, neither the greedy
`\s*` nor the optional bracket ever needs to backtrack — if the four digits
are not found after consuming maximal whitespace (and a bracket when one is
present), no shorter consumption can reveal them, since the next character
would then be a space or a bracket, never a digit.  `tailMatch` is therefore a
faithful deterministic rendering of the part of the pattern after group 1. -/

/-- Match `\s*[\(\[]?(\d{4})` at the head of `l`, returning the four digit
characters of group 2. -/
def tailMatch (l : List Char) : Option (List Char) :=
  let l1 := l.dropWhile isPySpace
  let l2 := match l1 with
    | '(' :: r => r
    | '[' :: r => r
    | _ => l1
  match l2 with
  | a :: b :: c :: d :: _ =>
    if a.isDigit && b.isDigit && c.isDigit && d.isDigit then some [a, b, c, d] else none
  | _ => none

/-- Lazy extension of group 1: `acc` holds the group's characters in reverse;
at each entry the rest of the pattern is tried at the current split, and on
failure one more (non-newline) character is moved into the group. -/
def goSearch (acc : List Char) : List Char → Option (List Char × List Char)
  | [] => none
  | c :: r =>
    match tailMatch (c :: r) with
    | some y => some (acc.reverse, y)
    | none => if c = '\n' then none else goSearch (c :: acc) r

/-- The anchored search: group 1 needs at least one (non-newline) character
before the rest of the pattern is tried. -/
def searchTitleYear : List Char → Option (List Char × List Char)
  | [] => none
  | c :: r => if c = '\n' then none else goSearch [c] r

/-! ## The tag-removal substitution

`re.sub(r'\[.*?\]|\(.*?\)|1080p|720p|BluRay|WEBRip|YTS\.MX|YTS|S\.\d+', '', title)`
(line 48 of `code.py`).  `re.sub` scans left to right; at each position the
alternatives are tried in the order written and the first that matches is
deleted, scanning resuming after it; if none matches the character is kept.
The lazy `\[.*?\]` matches from an opening bracket to the nearest closing one,
with no newline in between (`.` excludes newlines); when there is no closing
bracket the alternative fails and — since no other alternative starts with the
bracket character — the bracket is kept.  The recursion is fuelled (one unit
of fuel per character consumed suffices) so that it stays structural. -/

/-- Scan for the closing bracket of a lazy `\[.*?\]` / `\(.*?\)`: the
remainder after the nearest `close`, failing at a newline or the end. -/
def bracketSplit (close : Char) : List Char → Option (List Char)
  | [] => none
  | c :: r => if c = '\n' then none else if c = close then some r else bracketSplit close r

/-- Decompose the tail of a candidate `S\.\d+` match: the character after
`S.` together with the remainder. -/
def sDotSplit : List Char → Option (Char × List Char)
  | '.' :: d :: r2 => some (d, r2)
  | _ => none

/-- One fuelled pass of the substitution. -/
def subTagsF : Nat → List Char → List Char
  | 0, l => l
  | _ + 1, [] => []
  | f + 1, c :: rest =>
    if c = '[' then
      match bracketSplit ']' rest with
      | some r2 => subTagsF f r2
      | none => c :: subTagsF f rest
    else if c = '(' then
      match bracketSplit ')' rest with
      | some r2 => subTagsF f r2
      | none => c :: subTagsF f rest
    else if "1080p".data.isPrefixOf (c :: rest) then subTagsF f (rest.drop 4)
    else if "720p".data.isPrefixOf (c :: rest) then subTagsF f (rest.drop 3)
    else if "BluRay".data.isPrefixOf (c :: rest) then subTagsF f (rest.drop 5)
    else if "WEBRip".data.isPrefixOf (c :: rest) then subTagsF f (rest.drop 5)
    else if "YTS.MX".data.isPrefixOf (c :: rest) then subTagsF f (rest.drop 5)
    else if "YTS".data.isPrefixOf (c :: rest) then subTagsF f (rest.drop 2)
    else if c = 'S' then
      match sDotSplit rest with
      | some (d, r2) =>
        if d.isDigit then subTagsF f (r2.dropWhile Char.isDigit) else c :: subTagsF f rest
      | none => c :: subTagsF f rest
    else c :: subTagsF f rest

/-- The tag-removal substitution.  Every step of `subTagsF` consumes at least
one character, so `l.length` units of fuel always suffice. -/
def pySubTags (l : List Char) : List Char := subTagsF l.length l

/-- `extract_movie_info` (lines 36–52 of `code.py`): strip `.torrent`, run the
anchored year search, and on a match return the stripped, tag-cleaned,
re-stripped title together with the four-digit year. -/
def extract_movie_info (filename : String) : Option (String × String) :=
  match searchTitleYear (removeTorrent filename.data) with
  | none => none
  | some (g1, y) =>
    let title1 := pyStrip g1
    let title2 := pyStrip (pySubTags title1)
    some (String.mk title2, String.mk y)

/-! ## The catalog client

`session` is mounted with
`Retry(total=3, backoff_factor=0.5, status_forcelist=[429, 500, 502, 503, 504])`
(lines 26–34 of `code.py`).  In urllib3, `total` is the number of *retries*
allowed, so one initial attempt plus up to three retries may be made; when the
budget is exhausted a `MaxRetryError` is raised (and surfaces from
`session.get` as a requests exception).  A network exchange is modelled by a
stream `attempts : Nat → Except Unit Response`; `attempts n` is what the
`n`-th wire attempt yields — a transport-level failure or an HTTP response. -/

/-- Exceptions that the Python code can raise and catch. -/
inductive PyExc where
  | httpError (status : Nat)
  | jsonError
  | maxRetryError
  | ioError
deriving DecidableEq

/-- A movie record from the search response; `poster_path` is
`movie.get('poster_path')` — absent key, `None` or a string. -/
structure Movie where
  poster_path : Option String
deriving DecidableEq

deriving instance DecidableEq for Except

/-- An HTTP response: its status, what `response.json()['results']` would
yield (an exception for malformed bodies), and the body bytes for image
responses (abstracted to an identifier). -/
structure Response where
  status : Nat
  results : Except PyExc (List Movie)
  content : Nat
deriving DecidableEq

/-- `status_forcelist` of the mounted `Retry`. -/
def statusForcelist : List Nat := [429, 500, 502, 503, 504]

/-- The urllib3 retry loop for one `session.get`: a transport failure or a
status in the forcelist consumes a retry; any other response is returned
as-is.  When no retries remain the call raises.  Returns the outcome and the
number of wire attempts consumed (`idx` attempts precede this call). -/
def retryGetAux (attempts : Nat → Except Unit Response) :
    Nat → Nat → (Except PyExc Response) × Nat
  | retriesLeft, idx =>
    match attempts idx, retriesLeft with
    | .error _, 0 => (.error .maxRetryError, idx + 1)
    | .error _, r + 1 => retryGetAux attempts r (idx + 1)
    | .ok resp, 0 =>
      if resp.status ∈ statusForcelist then (.error .maxRetryError, idx + 1)
      else (.ok resp, idx + 1)
    | .ok resp, r + 1 =>
      if resp.status ∈ statusForcelist then retryGetAux attempts r (idx + 1)
      else (.ok resp, idx + 1)

/-- `session.get(...)` through the mounted adapter: `Retry(total=3)` allows
three retries after the initial attempt. -/
def sessionGet (attempts : Nat → Except Unit Response) : (Except PyExc Response) × Nat :=
  retryGetAux attempts 3 0

/-- `response.raise_for_status()` raises exactly for 4xx and 5xx statuses. -/
def raiseForStatus (r : Response) : Except PyExc Unit :=
  if 400 ≤ r.status ∧ r.status < 600 then .error (.httpError r.status) else .ok ()

/-- The body of the `try` block of `search_movie` (lines 63–70 of `code.py`):
get, `raise_for_status`, parse JSON, take the first element of a non-empty
`results` list. -/
def searchBody (attempts : Nat → Except Unit Response) : Except PyExc (Option Movie) :=
  match (sessionGet attempts).1 with
  | .error e => .error e
  | .ok resp =>
    match raiseForStatus resp with
    | .error e => .error e
    | .ok _ =>
      match resp.results with
      | .error e => .error e
      | .ok [] => .ok none
      | .ok (m :: _) => .ok (some m)

/-- `search_movie` (lines 54–73 of `code.py`): the blanket
`except Exception` turns every failure into `None`. -/
def search_movie (attempts : Nat → Except Unit Response) : Option Movie :=
  match searchBody attempts with
  | .ok v => v
  | .error _ => none

/-! ## download_poster -/

/-- The state of the artifact file at the save path. -/
inductive FileState where
  | absent
  | truncated
  | complete (content : Nat)
deriving DecidableEq

/-- How the local `open`/`write` of the poster behaves for this item. -/
inductive WriteBehavior where
  | ok
  | failOpen
  | failWrite
deriving DecidableEq

/-- Python truthiness of `poster_path` (`if not poster_path`): `None` and the
empty string are falsy. -/
def posterTruthy : Option String → Bool
  | none => false
  | some s => s ≠ ""

/-- `download_poster` (lines 75–91 of `code.py`).  A falsy `poster_path`
short-circuits to `False` with no network call.  Otherwise `session.get`
retrieves the whole body into memory (the request is not streamed, so a
mid-transfer failure raises inside `session.get`, before any file is
touched); `raise_for_status` raises on 4xx/5xx; only then is the file opened
and written — a failure of the write itself is caught after the file exists,
leaving a truncated artifact behind.  Returns the Python return value, the
resulting file state at the save path, and the wire attempts consumed. -/
def download_poster (poster_path : Option String) (attempts : Nat → Except Unit Response)
    (wb : WriteBehavior) (fs : FileState) : Bool × FileState × Nat :=
  if posterTruthy poster_path = false then (false, fs, 0)
  else
    match sessionGet attempts with
    | (.error _, used) => (false, fs, used)
    | (.ok resp, used) =>
      match raiseForStatus resp with
      | .error _ => (false, fs, used)
      | .ok _ =>
        match wb with
        | .failOpen => (false, fs, used)
        | .failWrite => (false, .truncated, used)
        | .ok => (true, .complete resp.content, used)

/-! ## The item processor -/

/-- `torrent_file.stem` (pathlib): the name with its last suffix removed,
where a suffix must start strictly inside the name and not at its last
character. -/
def pathStem (s : String) : String :=
  match s.data.reverse.findIdx? (fun c => c = '.') with
  | none => s
  | some j =>
    let i := s.data.length - 1 - j
    if 0 < i ∧ i < s.data.length - 1 then String.mk (s.data.take i) else s

/-- Everything one `process_single_torrent` call depends on: the input
filename, the state of the artifact file when the call starts, the wire
behaviour of the search and image requests, and the local write behaviour. -/
structure ItemEnv where
  filename : String
  initialFile : FileState
  searchAttempts : Nat → Except Unit Response
  fetchAttempts : Nat → Except Unit Response
  write : WriteBehavior

/-- The terminal classification of one item (the spec's `Outcome.status`),
recorded at the corresponding return site of `process_single_torrent`. -/
inductive Status where
  | downloaded
  | alreadyExists
  | parseFailed
  | notFound
  | downloadFailed
deriving DecidableEq

/-- The result dictionary built by `process_single_torrent`. -/
structure TResult where
  filename : String
  success : Bool
  message : String
deriving DecidableEq

/-- One run of `process_single_torrent`: its returned dictionary, the file
state at the artifact path afterwards, the number of wire attempts made, and
the status of the return site taken. -/
structure TRun where
  result : TResult
  fileAfter : FileState
  netCalls : Nat
  status : Status
deriving DecidableEq

/-- `process_single_torrent` (lines 93–134 of `code.py`).  The function is
total: its only fallible callees, `search_movie` and `download_poster`, catch
every exception internally, so no failure escapes — each failure path ends in
a returned record instead. -/
def process_single_torrent (env : ItemEnv) : TRun :=
  match extract_movie_info env.filename with
  | none =>
    { result := ⟨env.filename, false, "Could not parse movie info"⟩
      fileAfter := env.initialFile
      netCalls := 0
      status := .parseFailed }
  | some (title, year) =>
    if title = "" ∨ year = "" then
      { result := ⟨env.filename, false, "Could not parse movie info"⟩
        fileAfter := env.initialFile
        netCalls := 0
        status := .parseFailed }
    else
      let poster_filename := pathStem env.filename ++ ".jpg"
      if env.initialFile ≠ FileState.absent then
        { result := ⟨env.filename, true, "Poster already exists: " ++ poster_filename⟩
          fileAfter := env.initialFile
          netCalls := 0
          status := .alreadyExists }
      else
        match search_movie env.searchAttempts with
        | none =>
          { result := ⟨env.filename, false,
              "Movie not found: " ++ title ++ " (" ++ year ++ ")"⟩
            fileAfter := env.initialFile
            netCalls := (sessionGet env.searchAttempts).2
            status := .notFound }
        | some movie =>
          let dp := download_poster movie.poster_path env.fetchAttempts env.write env.initialFile
          if dp.1 then
            { result := ⟨env.filename, true, "✓ Downloaded: " ++ poster_filename⟩
              fileAfter := dp.2.1
              netCalls := (sessionGet env.searchAttempts).2 + dp.2.2
              status := .downloaded }
          else
            { result := ⟨env.filename, false, "Failed to download poster for: " ++ title⟩
              fileAfter := dp.2.1
              netCalls := (sessionGet env.searchAttempts).2 + dp.2.2
              status := .downloadFailed }

/-! ## The batch orchestrator -/

/-- The token the aggregation loop sniffs for in `result['message']`. -/
def aeToken : List Char := "already exists".data

/-- The mutable aggregation state of `process_torrents`: the three counters
and the per-category lists, appended to in completion order. -/
structure BatchCounts where
  success_count : Nat
  skip_count : Nat
  fail_count : Nat
  downloaded : List String
  skipped : List String
  failed : List (String × String)
deriving DecidableEq

/-- The body of the `as_completed` loop (lines 189–206 of `code.py`): a
successful result whose message mentions "already exists" is counted as
skipped, any other success as downloaded, and everything else as failed
(keeping the message as the reason). -/
def recordOutcome (st : BatchCounts) (r : TResult) : BatchCounts :=
  if r.success then
    if listContains aeToken r.message.data then
      { st with skip_count := st.skip_count + 1, skipped := st.skipped ++ [r.filename] }
    else
      { st with
        success_count := st.success_count + 1
        downloaded := st.downloaded ++ [r.filename] }
  else
    { st with
      fail_count := st.fail_count + 1
      failed := st.failed ++ [(r.filename, r.message)] }

/-- The emitted summary (lines 208–231 of `code.py`): the counters, the total,
and the detailed lists printed with `sorted(...)` — by filename for the
failures.  Python's `sorted` is modelled by a stable insertion sort. -/
structure BatchReport where
  success_count : Nat
  skip_count : Nat
  fail_count : Nat
  total : Nat
  downloadedSorted : List String
  failedSorted : List (String × String)
deriving DecidableEq

/-- `process_torrents` (lines 136–231 of `code.py`) on an already-discovered
list of items: every item is processed (the worker pool completes all
futures; completion order only permutes the unsorted lists, which the report
sorts), outcomes are aggregated by `recordOutcome`, and the summary is
emitted. -/
def process_torrents (items : List ItemEnv) : BatchReport :=
  let results := items.map (fun e => (process_single_torrent e).result)
  let st := results.foldl recordOutcome ⟨0, 0, 0, [], [], []⟩
  { success_count := st.success_count
    skip_count := st.skip_count
    fail_count := st.fail_count
    total := items.length
    downloadedSorted := List.insertionSort (fun a b => strLe a b = true) st.downloaded
    failedSorted := List.insertionSort (fun a b => strLe a.1 b.1 = true) st.failed }

/-! ## Concrete scenarios used by witnesses and counterexamples -/

/-- A wire that fails at the transport level on every attempt. -/
def allErrAttempts : Nat → Except Unit Response := fun _ => .error ()

/-- A bare response with a given status, empty results and empty body. -/
def plainResp (s : Nat) : Response := { status := s, results := .ok [], content := 0 }

/-- A movie record carrying a poster reference. -/
def movieHit : Movie := ⟨some "/p.jpg"⟩

/-- A 200 search response whose results list holds one movie. -/
def respHit : Response := { status := 200, results := .ok [movieHit], content := 0 }

/-- 503 on the first two attempts, then the successful search response. -/
def att503Twice : Nat → Except Unit Response :=
  fun n => if n < 2 then .ok (plainResp 503) else .ok respHit

/-- 404 on every attempt. -/
def att404 : Nat → Except Unit Response := fun _ => .ok (plainResp 404)

/-- A successful image fetch, body `42`. -/
def attImgOk : Nat → Except Unit Response :=
  fun _ => .ok { status := 200, results := .ok [], content := 42 }

/-- A 300 response with body `3` on every attempt. -/
def att300 : Nat → Except Unit Response :=
  fun _ => .ok { status := 300, results := .ok [], content := 3 }

/-- An unparseable filename over an already-present artifact. -/
def envUntitled : ItemEnv :=
  { filename := "Untitled.torrent", initialFile := .complete 5,
    searchAttempts := allErrAttempts, fetchAttempts := allErrAttempts, write := .ok }

/-- A parseable filename whose artifact is already present. -/
def envExists : ItemEnv :=
  { filename := "Inception (2010).torrent", initialFile := .complete 9,
    searchAttempts := allErrAttempts, fetchAttempts := allErrAttempts, write := .ok }

/-- A parseable filename processed end-to-end successfully. -/
def envGood : ItemEnv :=
  { filename := "Inception (2010).torrent", initialFile := .absent,
    searchAttempts := fun _ => .ok respHit, fetchAttempts := attImgOk, write := .ok }

/-- A successful download whose filename contains the text the aggregation
loop sniffs for. -/
def envSneaky : ItemEnv :=
  { filename := "x already exists (2010).torrent", initialFile := .absent,
    searchAttempts := fun _ => .ok respHit, fetchAttempts := attImgOk, write := .ok }

/-- Does one `session.get` with this wire end in a raised exception — either
retries exhausted or `raise_for_status` firing on the returned response? -/
def fetchRaises (attempts : Nat → Except Unit Response) : Bool :=
  match (sessionGet attempts).1 with
  | .error _ => true
  | .ok r => decide (400 ≤ r.status ∧ r.status < 600)

/-! ## Helper lemmas -/

lemma retryGetAux_used_le (attempts : Nat → Except Unit Response) :
    ∀ (r idx : Nat), (retryGetAux attempts r idx).2 ≤ idx + r + 1 := by
  intro r
  induction r with
  | zero =>
    intro idx
    unfold retryGetAux
    match attempts idx with
    | .error _ => simp
    | .ok resp =>
      by_cases h : resp.status ∈ statusForcelist <;> simp [h]
  | succ r ih =>
    intro idx
    unfold retryGetAux
    match attempts idx with
    | .error _ =>
      calc (retryGetAux attempts r (idx + 1)).2 ≤ idx + 1 + r + 1 := ih (idx + 1)
        _ ≤ idx + (r + 1) + 1 := by omega
    | .ok resp =>
      by_cases h : resp.status ∈ statusForcelist
      · simp only [h, if_true]
        calc (retryGetAux attempts r (idx + 1)).2 ≤ idx + 1 + r + 1 := ih (idx + 1)
          _ ≤ idx + (r + 1) + 1 := by omega
      · simp [h]

lemma sessionGet_used_le (attempts : Nat → Except Unit Response) :
    (sessionGet attempts).2 ≤ 4 := by
  have := retryGetAux_used_le attempts 3 0
  simpa [sessionGet] using this

lemma sessionGet_first_ok (attempts : Nat → Except Unit Response) (r : Response)
    (h1 : attempts 0 = .ok r) (h2 : r.status ∉ statusForcelist) :
    sessionGet attempts = (.ok r, 1) := by
  unfold sessionGet retryGetAux
  rw [h1]
  simp [h2]

/-- A fetch that raises never touches the file and returns `False`. -/
lemma download_poster_fetch_fail (pp : Option String) (att : Nat → Except Unit Response)
    (wb : WriteBehavior) (fs : FileState) (h : fetchRaises att = true) :
    (download_poster pp att wb fs).1 = false ∧ (download_poster pp att wb fs).2.1 = fs := by
  unfold download_poster
  by_cases hpp : posterTruthy pp = false
  · simp [hpp]
  · simp only [hpp, if_false]
    unfold fetchRaises at h
    rcases hg : sessionGet att with ⟨res, used⟩
    rw [hg] at h
    cases res with
    | error e => simp
    | ok r =>
      simp only at h
      have hr : raiseForStatus r = .error (.httpError r.status) := by
        unfold raiseForStatus
        rw [if_pos (of_decide_eq_true h)]
      simp [hr]

/-! ## Claim C4 — retry policy -/

/-- C4 counterexample: the claim says both operations make at most 3 attempts
in total, but `Retry(total=3)` budgets three *retries*, so a request whose
every attempt fails at the transport level consumes 4 wire attempts. -/
theorem claim4_four_attempts_cx :
    (sessionGet allErrAttempts).2 = 4 ∧ ¬ (sessionGet allErrAttempts).2 ≤ 3 := by decide

/-- C4 amended: each operation makes at most 4 attempts in total (one initial
attempt plus up to 3 retries); a first response whose status is outside
{429, 500, 502, 503, 504} is returned after exactly 1 attempt with no retry;
a search hitting 503 twice and then succeeding yields the match after exactly
3 attempts; a search returning 404 fails after exactly 1 attempt. -/
theorem claim4_retry_policy_amended :
    (∀ att, (sessionGet att).2 ≤ 4) ∧
    (∀ att r, att 0 = .ok r → r.status ∉ statusForcelist → sessionGet att = (.ok r, 1)) ∧
    (sessionGet att503Twice = (.ok respHit, 3) ∧ search_movie att503Twice = some movieHit) ∧
    (sessionGet att404 = (.ok (plainResp 404), 1) ∧ search_movie att404 = none) :=
  ⟨sessionGet_used_le, sessionGet_first_ok, ⟨by decide, by decide⟩, ⟨by decide, by decide⟩⟩

/-- Witness for C4: the no-retry clause applied to the concrete 404 wire. -/
theorem claim4_retry_policy_amended_witness :
    sessionGet att404 = (.ok (plainResp 404), 1) :=
  claim4_retry_policy_amended.2.1 att404 (plainResp 404) rfl (by decide)

/-! ## Claim C5 — failed downloads and the artifact file -/

/-- C5 counterexample: a download whose local write fails (the fetch itself
succeeded) returns `False` yet leaves a truncated artifact at the save path —
the code opens the target path directly and does not delete it on failure. -/
theorem claim5_truncated_artifact_cx :
    (download_poster (some "/p.jpg") attImgOk .failWrite .absent).1 = false ∧
    (download_poster (some "/p.jpg") attImgOk .failWrite .absent).2.1 = FileState.truncated := by
  decide

/-- C5 amended: a failed image *fetch* (transport failure, retries exhausted,
or a 4xx/5xx status) leaves the save path unchanged, but a failure of the
local write itself can leave a truncated artifact there. -/
theorem claim5_fetch_atomic_amended :
    (∀ pp att wb fs, fetchRaises att = true →
      (download_poster pp att wb fs).1 = false ∧ (download_poster pp att wb fs).2.1 = fs) ∧
    (download_poster (some "/p.jpg") attImgOk .failWrite .absent).2.1 = FileState.truncated :=
  ⟨download_poster_fetch_fail, by decide⟩

/-- Witness for C5: the fetch-failure clause at an all-transport-error wire. -/
theorem claim5_fetch_atomic_amended_witness :
    (download_poster (some "/p.jpg") allErrAttempts .ok .absent).2.1 = FileState.absent :=
  (claim5_fetch_atomic_amended.1 (some "/p.jpg") allErrAttempts .ok .absent (by decide)).2

/-! ## Claim C10 — fetch failures and the filesystem -/

/-- C10 counterexample: the claim counts *any* non-2xx status as a fetch
failure, but `raise_for_status` only raises on 4xx/5xx — a 300 response is
treated as success and its body is written to the save path. -/
theorem claim10_non2xx_cx :
    ¬ (200 ≤ (300 : Nat) ∧ (300 : Nat) < 300) ∧
    (download_poster (some "/p.jpg") att300 .ok .absent).1 = true ∧
    (download_poster (some "/p.jpg") att300 .ok .absent).2.1 = FileState.complete 3 := by
  decide

/-- C10 amended: if the image-fetch request fails (transport error, timeout,
retries exhausted, or a 4xx/5xx status) no file is created at the save path;
conversely the file state can change only once `session.get` has returned a
response that `raise_for_status` accepts — i.e. only after the whole body is
in memory — so only the local write can fail after the file exists. -/
theorem claim10_fetch_before_open_amended :
    (∀ pp att wb fs, fetchRaises att = true → (download_poster pp att wb fs).2.1 = fs) ∧
    (∀ pp att wb fs, (download_poster pp att wb fs).2.1 ≠ fs →
      ∃ r, (sessionGet att).1 = .ok r ∧ raiseForStatus r = .ok ()) := by
  constructor
  · intro pp att wb fs h
    exact (download_poster_fetch_fail pp att wb fs h).2
  · intro pp att wb fs h
    unfold download_poster at h
    split at h
    · simp at h
    · split at h
      · simp at h
      · next resp used heq =>
        split at h
        · simp at h
        · next u hru => exact ⟨resp, by rw [heq], hru⟩

/-- Witness for C10: the fetch-failure clause at the concrete 404 wire. -/
theorem claim10_fetch_before_open_amended_witness :
    (download_poster (some "/p.jpg") att404 .ok .absent).2.1 = FileState.absent :=
  claim10_fetch_before_open_amended.1 (some "/p.jpg") att404 .ok .absent (by decide)

/-! ## Claim C3 — idempotence of the artifact check -/

/-- C3 counterexample: an input file whose artifact already exists but whose
filename does not parse (`Untitled.torrent`, no four-digit year) returns the
parse-failure record, not the AlreadyExists outcome — the parse check at
lines 103–107 of `code.py` runs before the existence check at line 113. -/
theorem claim3_parse_failure_cx :
    envUntitled.initialFile ≠ FileState.absent ∧
    (process_single_torrent envUntitled).result.success = false ∧
    (process_single_torrent envUntitled).result.message = "Could not parse movie info" ∧
    (process_single_torrent envUntitled).status = Status.parseFailed ∧
    (process_single_torrent envUntitled).status ≠ Status.alreadyExists ∧
    (process_single_torrent envUntitled).netCalls = 0 := by decide

/-- C3 amended: over a directory in which every item's artifact already
exists, each item makes zero search or image-fetch network calls and leaves
the filesystem unchanged; every item whose filename parses to a usable
title/year returns the full AlreadyExists outcome (success flag and
"Poster already exists" message); and every item ends as either AlreadyExists
or ParseFailed — so a second run yields AlreadyExists for every
successfully-parsing item with zero network traffic. -/
theorem claim3_already_exists_amended (items : List ItemEnv)
    (h : ∀ e ∈ items, e.initialFile ≠ FileState.absent) :
    (∀ e ∈ items, (process_single_torrent e).netCalls = 0 ∧
      (process_single_torrent e).fileAfter = e.initialFile) ∧
    (∀ e ∈ items, ∀ t y, extract_movie_info e.filename = some (t, y) →
      ¬ (t = "" ∨ y = "") →
      (process_single_torrent e).status = Status.alreadyExists ∧
      (process_single_torrent e).result.success = true ∧
      (process_single_torrent e).result.message =
        "Poster already exists: " ++ (pathStem e.filename ++ ".jpg")) ∧
    (∀ e ∈ items, (process_single_torrent e).status = Status.alreadyExists ∨
      (process_single_torrent e).status = Status.parseFailed) := by
  refine ⟨?_, ?_, ?_⟩
  · intro e he
    unfold process_single_torrent
    rcases hx : extract_movie_info e.filename with _ | ⟨t, y⟩
    · exact ⟨rfl, rfl⟩
    · by_cases hty : t = "" ∨ y = ""
      · simp [hty]
      · simp [hty, h e he]
  · intro e he t y hx hty
    unfold process_single_torrent
    rw [hx]
    simp [hty, h e he]
  · intro e he
    unfold process_single_torrent
    rcases hx : extract_movie_info e.filename with _ | ⟨t, y⟩
    · exact Or.inr rfl
    · by_cases hty : t = "" ∨ y = ""
      · simp [hty]
      · simp [hty, h e he]

/-- Witness for C3: the amended statement at a one-item batch whose artifact
is present. -/
theorem claim3_already_exists_amended_witness :
    (process_single_torrent envExists).status = Status.alreadyExists ∧
    (process_single_torrent envExists).result.success = true ∧
    (process_single_torrent envExists).result.message =
      "Poster already exists: " ++ (pathStem envExists.filename ++ ".jpg") :=
  (claim3_already_exists_amended [envExists]
      (by intro e he; simp at he; subst he; decide)).2.1
    envExists (by simp) "Inception" "2010" (by decide) (by decide)

/-! ## Claim C8 — what step 1 of the extractor removes -/

lemma removeTorrent_cons_of_no_tok (c : Char) (l : List Char)
    (h : torrentTok.isPrefixOf (c :: l) = false) :
    removeTorrent (c :: l) = c :: removeTorrent l := by
  rw [removeTorrent.eq_def]
  split
  · next rest heq =>
    rw [show c :: l = '.' :: 't' :: 'o' :: 'r' :: 'r' :: 'e' :: 'n' :: 't' :: rest from heq] at h
    simp [torrentTok, List.isPrefixOf] at h
  · next c' rest h1 heq =>
    cases heq
    rfl
  · next heq => simp at heq

lemma removeTorrent_tok (l : List Char) :
    removeTorrent ('.' :: 't' :: 'o' :: 'r' :: 'r' :: 'e' :: 'n' :: 't' :: l) =
      removeTorrent l := rfl

lemma removeTorrent_no_occ : ∀ (l : List Char),
    listContains torrentTok l = false → removeTorrent l = l := by
  intro l
  induction l with
  | nil => intro _; rfl
  | cons c rest ih =>
    intro h
    simp only [listContains, Bool.or_eq_false_iff] at h
    rw [removeTorrent_cons_of_no_tok c rest h.1, ih h.2]

lemma removeTorrent_dotfree_append (l1 l2 : List Char) (h : ∀ c ∈ l1, c ≠ '.') :
    removeTorrent (l1 ++ l2) = l1 ++ removeTorrent l2 := by
  induction l1 with
  | nil => rfl
  | cons c rest ih =>
    have hc : c ≠ '.' := h c (List.mem_cons_self c rest)
    have hc' : ('.' == c) = false := by
      rw [beq_eq_false_iff_ne]
      exact fun e => hc e.symm
    have hpre : torrentTok.isPrefixOf (c :: (rest ++ l2)) = false := by
      show (('.' == c) && List.isPrefixOf ['t', 'o', 'r', 'r', 'e', 'n', 't'] (rest ++ l2)) = false
      rw [hc']
      rfl
    rw [List.cons_append, removeTorrent_cons_of_no_tok c _ hpre,
      ih (fun x hx => h x (List.mem_cons_of_mem c hx))]
    rfl

/-- C8 counterexample: step 1 removes the interior occurrence of ".torrent",
so the string passed on to matching is not the filename with only a trailing
suffix stripped. -/
theorem claim8_interior_strip_cx :
    stripStep "My.torrent.Movie (2010).torrent" = "My.Movie (2010)" ∧
    stripStep "My.torrent.Movie (2010).torrent" ≠ "My.torrent.Movie (2010)" := by decide

/-- C8 amended: step 1 removes *every* occurrence of ".torrent" in a single
left-to-right pass, interior ones included: for any surrounding text in which
the token does not otherwise occur (and that cannot start an occurrence
bleeding into it), the occurrence is deleted wherever it sits. -/
theorem claim8_replace_all_amended (a b : String)
    (ha : a.data.all (fun c => c ≠ '.') = true)
    (hb : listContains torrentTok b.data = false) :
    stripStep (a ++ ".torrent" ++ b) = a ++ b := by
  have hdata : (a ++ ".torrent" ++ b).data = a.data ++ (".torrent".data ++ b.data) := by
    simp [List.append_assoc]
  unfold stripStep
  rw [hdata, removeTorrent_dotfree_append _ _ (by simpa using ha)]
  have : removeTorrent (".torrent".data ++ b.data) = removeTorrent b.data := rfl
  rw [this, removeTorrent_no_occ _ hb]
  apply String.ext
  simp

/-- Witness for C8: the amended statement at an interior occurrence. -/
theorem claim8_replace_all_amended_witness :
    stripStep ("My" ++ ".torrent" ++ ".Movie (2010)") = "My" ++ ".Movie (2010)" :=
  claim8_replace_all_amended "My" ".Movie (2010)" (by decide) (by decide)

/-! ## Claim C9 — tag removal is case-sensitive -/

lemma data_append_ne (a b : String) (h : a.data ≠ []) : (a ++ b).data ≠ [] := by
  rw [String.data_append]
  intro he
  exact h (List.append_eq_nil.mp he).1

lemma ne_empty_of_data_ne (s : String) (h : s.data ≠ []) : s ≠ "" := by
  intro he
  rw [he] at h
  exact h rfl

lemma process_filename (env : ItemEnv) :
    (process_single_torrent env).result.filename = env.filename := by
  unfold process_single_torrent
  split
  · rfl
  · split
    · rfl
    · split
      · rfl
      · split
        · rfl
        · dsimp only
          split
          · rfl
          · rfl

/-- Every run of `process_single_torrent` ends at one of the five return
sites, with the success flag and message of that site. -/
lemma process_cases (env : ItemEnv) :
    ((process_single_torrent env).status = Status.parseFailed ∧
      (process_single_torrent env).result.success = false ∧
      (process_single_torrent env).result.message = "Could not parse movie info") ∨
    ((process_single_torrent env).status = Status.alreadyExists ∧
      (process_single_torrent env).result.success = true ∧
      (process_single_torrent env).result.message =
        "Poster already exists: " ++ (pathStem env.filename ++ ".jpg")) ∨
    ((process_single_torrent env).status = Status.notFound ∧
      (process_single_torrent env).result.success = false ∧
      ∃ t y, (process_single_torrent env).result.message =
        "Movie not found: " ++ t ++ " (" ++ y ++ ")") ∨
    ((process_single_torrent env).status = Status.downloaded ∧
      (process_single_torrent env).result.success = true ∧
      (process_single_torrent env).result.message =
        "✓ Downloaded: " ++ (pathStem env.filename ++ ".jpg")) ∨
    ((process_single_torrent env).status = Status.downloadFailed ∧
      (process_single_torrent env).result.success = false ∧
      ∃ t, (process_single_torrent env).result.message =
        "Failed to download poster for: " ++ t) := by
  unfold process_single_torrent
  split
  · exact Or.inl ⟨rfl, rfl, rfl⟩
  · rename_i t y _
    split
    · exact Or.inl ⟨rfl, rfl, rfl⟩
    · split
      · exact Or.inr (Or.inl ⟨rfl, rfl, rfl⟩)
      · split
        · exact Or.inr (Or.inr (Or.inl ⟨rfl, rfl, t, y, rfl⟩))
        · dsimp only
          split
          · exact Or.inr (Or.inr (Or.inr (Or.inl ⟨rfl, rfl, rfl⟩)))
          · exact Or.inr (Or.inr (Or.inr (Or.inr ⟨rfl, rfl, t, rfl⟩)))

/-- C1: `process_single_torrent` is total — every run yields exactly one
result record carrying the input's filename, with a non-empty message; the
only fallible callees catch all their exceptions, and every failure path
(parse failure, search error or no match, missing poster reference, download
or write error) produces one of the three failure messages instead of a
raised exception. -/
theorem claim1_outcome_total (env : ItemEnv) :
    (process_single_torrent env).result.filename = env.filename ∧
    (process_single_torrent env).result.message ≠ "" ∧
    ((process_single_torrent env).result.success = false →
      (process_single_torrent env).result.message = "Could not parse movie info" ∨
      (∃ t y, (process_single_torrent env).result.message =
        "Movie not found: " ++ t ++ " (" ++ y ++ ")") ∨
      (∃ t, (process_single_torrent env).result.message =
        "Failed to download poster for: " ++ t)) := by
  refine ⟨process_filename env, ?_, ?_⟩
  · rcases process_cases env with ⟨_, _, hm⟩ | ⟨_, _, hm⟩ | ⟨_, _, t, y, hm⟩ |
      ⟨_, _, hm⟩ | ⟨_, _, t, hm⟩ <;> rw [hm]
    · decide
    · exact ne_empty_of_data_ne _ (data_append_ne _ _ (by decide))
    · exact ne_empty_of_data_ne _ (data_append_ne _ _
        (data_append_ne _ _ (data_append_ne _ _ (data_append_ne _ _ (by decide)))))
    · exact ne_empty_of_data_ne _ (data_append_ne _ _ (by decide))
    · exact ne_empty_of_data_ne _ (data_append_ne _ _ (by decide))
  · intro hsucc
    rcases process_cases env with ⟨_, hs, hm⟩ | ⟨_, hs, hm⟩ | ⟨_, hs, t, y, hm⟩ |
      ⟨_, hs, hm⟩ | ⟨_, hs, t, hm⟩
    · exact Or.inl hm
    · rw [hs] at hsucc; exact absurd hsucc (by simp)
    · exact Or.inr (Or.inl ⟨t, y, hm⟩)
    · rw [hs] at hsucc; exact absurd hsucc (by simp)
    · exact Or.inr (Or.inr ⟨t, hm⟩)

/-- Witness for C1: the statement instantiated at a concrete item. -/
theorem claim1_outcome_total_witness :
    (process_single_torrent envUntitled).result.filename = envUntitled.filename ∧
    (process_single_torrent envUntitled).result.message ≠ "" ∧
    ((process_single_torrent envUntitled).result.success = false →
      (process_single_torrent envUntitled).result.message = "Could not parse movie info" ∨
      (∃ t y, (process_single_torrent envUntitled).result.message =
        "Movie not found: " ++ t ++ " (" ++ y ++ ")") ∨
      (∃ t, (process_single_torrent envUntitled).result.message =
        "Failed to download poster for: " ++ t)) :=
  claim1_outcome_total envUntitled

/-! ## Claims C2 and C7 — batch aggregation -/

/-- The aggregation loop's "downloaded" test: a success whose message does not
mention "already exists". -/
def catDl (r : TResult) : Bool := r.success && !(listContains aeToken r.message.data)

/-- The aggregation loop's "skipped" test: a success whose message mentions
"already exists". -/
def catSkip (r : TResult) : Bool := r.success && listContains aeToken r.message.data

/-- The aggregation loop's "failed" test. -/
def catFail (r : TResult) : Bool := !r.success

lemma cat_exactly_one (r : TResult) :
    (catDl r).toNat + (catSkip r).toNat + (catFail r).toNat = 1 := by
  unfold catDl catSkip catFail
  by_cases h1 : r.success <;> by_cases h2 : listContains aeToken r.message.data <;>
    simp [h1, h2]

lemma foldl_record_success : ∀ (rs : List TResult) (st : BatchCounts),
    (rs.foldl recordOutcome st).success_count = st.success_count + rs.countP catDl := by
  intro rs
  induction rs with
  | nil => intro st; simp
  | cons r rs ih =>
    intro st
    rw [List.foldl_cons, ih, List.countP_cons]
    unfold recordOutcome catDl
    by_cases h1 : r.success <;> by_cases h2 : listContains aeToken r.message.data <;>
      (simp [h1, h2]; try omega)

lemma foldl_record_skip : ∀ (rs : List TResult) (st : BatchCounts),
    (rs.foldl recordOutcome st).skip_count = st.skip_count + rs.countP catSkip := by
  intro rs
  induction rs with
  | nil => intro st; simp
  | cons r rs ih =>
    intro st
    rw [List.foldl_cons, ih, List.countP_cons]
    unfold recordOutcome catSkip
    by_cases h1 : r.success <;> by_cases h2 : listContains aeToken r.message.data <;>
      (simp [h1, h2]; try omega)

lemma foldl_record_fail : ∀ (rs : List TResult) (st : BatchCounts),
    (rs.foldl recordOutcome st).fail_count = st.fail_count + rs.countP catFail := by
  intro rs
  induction rs with
  | nil => intro st; simp
  | cons r rs ih =>
    intro st
    rw [List.foldl_cons, ih, List.countP_cons]
    unfold recordOutcome catFail
    by_cases h1 : r.success <;> by_cases h2 : listContains aeToken r.message.data <;>
      simp [h1, h2] <;> omega

lemma foldl_record_downloaded : ∀ (rs : List TResult) (st : BatchCounts),
    (rs.foldl recordOutcome st).downloaded =
      st.downloaded ++ (rs.filter catDl).map (fun r => r.filename) := by
  intro rs
  induction rs with
  | nil => intro st; simp
  | cons r rs ih =>
    intro st
    rw [List.foldl_cons, ih, List.filter_cons]
    unfold recordOutcome catDl
    by_cases h1 : r.success <;> by_cases h2 : listContains aeToken r.message.data <;>
      simp [h1, h2]

lemma foldl_record_failed : ∀ (rs : List TResult) (st : BatchCounts),
    (rs.foldl recordOutcome st).failed =
      st.failed ++ (rs.filter catFail).map (fun r => (r.filename, r.message)) := by
  intro rs
  induction rs with
  | nil => intro st; simp
  | cons r rs ih =>
    intro st
    rw [List.foldl_cons, ih, List.filter_cons]
    unfold recordOutcome catFail
    by_cases h1 : r.success <;> by_cases h2 : listContains aeToken r.message.data <;>
      simp [h1, h2]

lemma countP_cat_sum (rs : List TResult) :
    rs.countP catDl + rs.countP catSkip + rs.countP catFail = rs.length := by
  induction rs with
  | nil => rfl
  | cons r rs ih =>
    have h := cat_exactly_one r
    simp only [List.countP_cons, List.length_cons]
    by_cases h1 : catDl r <;> by_cases h2 : catSkip r <;> by_cases h3 : catFail r <;>
      simp [h1, h2, h3] at h ⊢ <;> omega

/-- C2: a completed batch over `items` produces exactly one result per item,
the results carry the items' filenames (distinct when the inputs are), every
record is counted in exactly one of the three categories, each counter equals
the number of records its test accepts, and the three counters sum to the
number of items. -/
theorem claim2_batch_partition (items : List ItemEnv)
    (hnd : (items.map (fun e => e.filename)).Nodup) :
    (items.map (fun e => (process_single_torrent e).result)).length = items.length ∧
    (items.map (fun e => (process_single_torrent e).result)).map (fun r => r.filename) =
      items.map (fun e => e.filename) ∧
    ((items.map (fun e => (process_single_torrent e).result)).map (fun r => r.filename)).Nodup ∧
    (∀ r ∈ items.map (fun e => (process_single_torrent e).result),
      (catDl r).toNat + (catSkip r).toNat + (catFail r).toNat = 1) ∧
    (process_torrents items).success_count =
      (items.map (fun e => (process_single_torrent e).result)).countP catDl ∧
    (process_torrents items).skip_count =
      (items.map (fun e => (process_single_torrent e).result)).countP catSkip ∧
    (process_torrents items).fail_count =
      (items.map (fun e => (process_single_torrent e).result)).countP catFail ∧
    (process_torrents items).success_count + (process_torrents items).skip_count +
      (process_torrents items).fail_count = items.length ∧
    (process_torrents items).total = items.length := by
  have hmap : (items.map (fun e => (process_single_torrent e).result)).map
      (fun r => r.filename) = items.map (fun e => e.filename) := by
    rw [List.map_map]
    exact List.map_congr_left (fun e _ => process_filename e)
  have hsc : (process_torrents items).success_count =
      (items.map (fun e => (process_single_torrent e).result)).countP catDl := by
    show (List.foldl recordOutcome ⟨0, 0, 0, [], [], []⟩ _).success_count = _
    rw [foldl_record_success]
    simp
  have hsk : (process_torrents items).skip_count =
      (items.map (fun e => (process_single_torrent e).result)).countP catSkip := by
    show (List.foldl recordOutcome ⟨0, 0, 0, [], [], []⟩ _).skip_count = _
    rw [foldl_record_skip]
    simp
  have hfl : (process_torrents items).fail_count =
      (items.map (fun e => (process_single_torrent e).result)).countP catFail := by
    show (List.foldl recordOutcome ⟨0, 0, 0, [], [], []⟩ _).fail_count = _
    rw [foldl_record_fail]
    simp
  refine ⟨List.length_map _ _, hmap, hmap ▸ hnd, fun r _ => cat_exactly_one r,
    hsc, hsk, hfl, ?_, rfl⟩
  rw [hsc, hsk, hfl, countP_cat_sum, List.length_map]

/-- Witness for C2: the statement at a concrete two-item batch. -/
theorem claim2_batch_partition_witness :
    (process_torrents [envGood, envUntitled]).success_count +
      (process_torrents [envGood, envUntitled]).skip_count +
      (process_torrents [envGood, envUntitled]).fail_count =
      ([envGood, envUntitled] : List ItemEnv).length :=
  (claim2_batch_partition [envGood, envUntitled] (by decide)).2.2.2.2.2.2.2.1

/-! ## Claim C7 — the emitted report -/

lemma charListLe_total : ∀ (x y : List Char), charListLe x y = true ∨ charListLe y x = true := by
  intro x
  induction x with
  | nil => intro y; left; rfl
  | cons a as ih =>
    intro y
    cases y with
    | nil => right; rfl
    | cons b bs =>
      rcases lt_trichotomy a b with hab | hab | hab
      · left
        simp [charListLe, hab]
      · subst hab
        rcases ih bs with h | h
        · left
          simp [charListLe, lt_irrefl, h]
        · right
          simp [charListLe, lt_irrefl, h]
      · right
        simp [charListLe, hab]

lemma charListLe_trans : ∀ (x y z : List Char),
    charListLe x y = true → charListLe y z = true → charListLe x z = true := by
  intro x
  induction x with
  | nil => intro y z _ _; rfl
  | cons a as ih =>
    intro y z hxy hyz
    cases y with
    | nil => simp [charListLe] at hxy
    | cons b bs =>
      cases z with
      | nil => simp [charListLe] at hyz
      | cons c cs =>
        rcases lt_trichotomy a b with hab | hab | hab
        · rcases lt_trichotomy b c with hbc | hbc | hbc
          · simp [charListLe, lt_trans hab hbc]
          · subst hbc
            simp [charListLe, hab]
          · rw [show charListLe (b :: bs) (c :: cs) =
                (if b < c then true else if c < b then false else charListLe bs cs) from rfl,
              if_neg (by exact fun h => lt_asymm hbc h), if_pos hbc] at hyz
            exact absurd hyz (by simp)
        · subst hab
          rw [show charListLe (a :: as) (a :: bs) =
              (if a < a then true else if a < a then false else charListLe as bs) from rfl,
            if_neg (lt_irrefl a), if_neg (lt_irrefl a)] at hxy
          rcases lt_trichotomy a c with hac | hac | hac
          · simp [charListLe, hac]
          · subst hac
            rw [show charListLe (a :: bs) (a :: cs) =
                (if a < a then true else if a < a then false else charListLe bs cs) from rfl,
              if_neg (lt_irrefl a), if_neg (lt_irrefl a)] at hyz
            simp [charListLe, lt_irrefl, ih bs cs hxy hyz]
          · rw [show charListLe (a :: bs) (c :: cs) =
                (if a < c then true else if c < a then false else charListLe bs cs) from rfl,
              if_neg (by exact fun h => lt_asymm hac h), if_pos hac] at hyz
            exact absurd hyz (by simp)
        · rw [show charListLe (a :: as) (b :: bs) =
              (if a < b then true else if b < a then false else charListLe as bs) from rfl,
            if_neg (by exact fun h => lt_asymm hab h), if_pos hab] at hxy
          exact absurd hxy (by simp)

instance : IsTotal String (fun a b => strLe a b = true) :=
  ⟨fun a b => charListLe_total a.data b.data⟩

instance : IsTrans String (fun a b => strLe a b = true) :=
  ⟨fun a b c => charListLe_trans a.data b.data c.data⟩

instance : IsTotal (String × String) (fun a b => strLe a.1 b.1 = true) :=
  ⟨fun a b => charListLe_total a.1.data b.1.data⟩

instance : IsTrans (String × String) (fun a b => strLe a.1 b.1 = true) :=
  ⟨fun a b c => charListLe_trans a.1.data b.1.data c.1.data⟩

lemma listContains_append_right (pat l2 : List Char) (h : pat.isPrefixOf l2 = true) :
    ∀ l1, listContains pat (l1 ++ l2) = true := by
  intro l1
  induction l1 with
  | nil =>
    cases l2 with
    | nil =>
      cases pat with
      | nil => rfl
      | cons p ps => simp [List.isPrefixOf] at h
    | cons c rest => simp [listContains, h]
  | cons c rest ih => simp [listContains, ih]

lemma contains_already_exists (pf : String) :
    listContains aeToken ("Poster already exists: " ++ pf).data = true := by
  rw [String.data_append]
  rw [show ("Poster already exists: " : String).data =
    "Poster ".data ++ ("already exists: " : String).data from by decide]
  rw [List.append_assoc]
  refine listContains_append_right _ _ ?_ _
  rw [show ("already exists: " : String).data = aeToken ++ ": ".data from by decide,
    List.append_assoc]
  exact List.isPrefixOf_iff_prefix.mpr (List.prefix_append _ _)

/-- Under the no-collision hypothesis on the Downloaded message, the
aggregation loop's message-sniffing classification coincides with the status
of the return site the run actually took. -/
lemma classify_of_run (env : ItemEnv)
    (h : listContains aeToken ("✓ Downloaded: " ++ (pathStem env.filename ++ ".jpg")).data
      = false) :
    catDl (process_single_torrent env).result =
      ((process_single_torrent env).status == Status.downloaded) ∧
    catSkip (process_single_torrent env).result =
      ((process_single_torrent env).status == Status.alreadyExists) ∧
    catFail (process_single_torrent env).result =
      (((process_single_torrent env).status == Status.parseFailed) ||
       ((process_single_torrent env).status == Status.notFound) ||
       ((process_single_torrent env).status == Status.downloadFailed)) := by
  rcases process_cases env with ⟨hst, hsu, hm⟩ | ⟨hst, hsu, hm⟩ | ⟨hst, hsu, t, y, hm⟩ |
    ⟨hst, hsu, hm⟩ | ⟨hst, hsu, t, hm⟩
  · refine ⟨?_, ?_, ?_⟩ <;> simp [catDl, catSkip, catFail, hst, hsu]
  · have hc : listContains aeToken (process_single_torrent env).result.message.data = true := by
      rw [hm]
      exact contains_already_exists _
    refine ⟨?_, ?_, ?_⟩ <;> simp [catDl, catSkip, catFail, hst, hsu, hc]
  · refine ⟨?_, ?_, ?_⟩ <;> simp [catDl, catSkip, catFail, hst, hsu]
  · have hc : listContains aeToken (process_single_torrent env).result.message.data = false := by
      rw [hm]
      exact h
    refine ⟨?_, ?_, ?_⟩ <;> simp [catDl, catSkip, catFail, hst, hsu, hc]
  · refine ⟨?_, ?_, ?_⟩ <;> simp [catDl, catSkip, catFail, hst, hsu]

/-- C7 counterexample: a successfully downloaded item whose filename contains
the text "already exists" is counted as skipped, so the AlreadyExists counter
(1) differs from the number of outcomes actually having that status (0). -/
theorem claim7_miscount_cx :
    (process_torrents [envSneaky]).skip_count = 1 ∧
    ([envSneaky].map process_single_torrent).countP
      (fun tr => tr.status == Status.alreadyExists) = 0 ∧
    (process_single_torrent envSneaky).status = Status.downloaded := by decide

/-- C7 amended: provided no item's Downloaded message contains the text
"already exists" (the aggregation loop classifies by sniffing the message for
that substring, so a downloaded file whose stem contains it is miscounted as
skipped), the three counters equal the number of runs with the corresponding
status, and the two detailed lists are sorted by filename and list exactly
the Downloaded runs' filenames resp. the failed runs' (filename, reason)
pairs. -/
theorem claim7_report_amended (items : List ItemEnv)
    (h : ∀ e ∈ items,
      listContains aeToken ("✓ Downloaded: " ++ (pathStem e.filename ++ ".jpg")).data = false) :
    (process_torrents items).success_count =
      (items.map process_single_torrent).countP (fun tr => tr.status == Status.downloaded) ∧
    (process_torrents items).skip_count =
      (items.map process_single_torrent).countP (fun tr => tr.status == Status.alreadyExists) ∧
    (process_torrents items).fail_count =
      (items.map process_single_torrent).countP (fun tr =>
        (tr.status == Status.parseFailed) || (tr.status == Status.notFound) ||
        (tr.status == Status.downloadFailed)) ∧
    (process_torrents items).downloadedSorted.Sorted (fun a b => strLe a b = true) ∧
    (process_torrents items).failedSorted.Sorted (fun a b => strLe a.1 b.1 = true) ∧
    (process_torrents items).downloadedSorted.Perm
      (((items.map process_single_torrent).filter
        (fun tr => tr.status == Status.downloaded)).map (fun tr => tr.result.filename)) ∧
    (process_torrents items).failedSorted.Perm
      (((items.map process_single_torrent).filter (fun tr => !tr.result.success)).map
        (fun tr => (tr.result.filename, tr.result.message))) := by
  have hsc : (process_torrents items).success_count =
      (items.map (fun e => (process_single_torrent e).result)).countP catDl := by
    show (List.foldl recordOutcome ⟨0, 0, 0, [], [], []⟩ _).success_count = _
    rw [foldl_record_success]
    simp
  have hsk : (process_torrents items).skip_count =
      (items.map (fun e => (process_single_torrent e).result)).countP catSkip := by
    show (List.foldl recordOutcome ⟨0, 0, 0, [], [], []⟩ _).skip_count = _
    rw [foldl_record_skip]
    simp
  have hfl : (process_torrents items).fail_count =
      (items.map (fun e => (process_single_torrent e).result)).countP catFail := by
    show (List.foldl recordOutcome ⟨0, 0, 0, [], [], []⟩ _).fail_count = _
    rw [foldl_record_fail]
    simp
  have hdl : (process_torrents items).downloadedSorted =
      List.insertionSort (fun a b => strLe a b = true)
        (((items.map (fun e => (process_single_torrent e).result)).filter catDl).map
          (fun r => r.filename)) := by
    show List.insertionSort _ (List.foldl recordOutcome ⟨0, 0, 0, [], [], []⟩ _).downloaded = _
    rw [foldl_record_downloaded]
    simp
  have hfls : (process_torrents items).failedSorted =
      List.insertionSort (fun a b => strLe a.1 b.1 = true)
        (((items.map (fun e => (process_single_torrent e).result)).filter catFail).map
          (fun r => (r.filename, r.message))) := by
    show List.insertionSort _ (List.foldl recordOutcome ⟨0, 0, 0, [], [], []⟩ _).failed = _
    rw [foldl_record_failed]
    simp
  refine ⟨?_, ?_, ?_, ?_, ?_, ?_, ?_⟩
  · rw [hsc, List.countP_map, List.countP_map]
    refine List.countP_congr (fun e he => ?_)
    simp only [Function.comp_apply]
    rw [(classify_of_run e (h e he)).1]
  · rw [hsk, List.countP_map, List.countP_map]
    refine List.countP_congr (fun e he => ?_)
    simp only [Function.comp_apply]
    rw [(classify_of_run e (h e he)).2.1]
  · rw [hfl, List.countP_map, List.countP_map]
    refine List.countP_congr (fun e he => ?_)
    simp only [Function.comp_apply]
    rw [(classify_of_run e (h e he)).2.2]
  · rw [hdl]
    exact List.sorted_insertionSort _ _
  · rw [hfls]
    exact List.sorted_insertionSort _ _
  · rw [hdl]
    refine (List.perm_insertionSort _ _).trans ?_
    rw [List.filter_map, List.map_map, List.filter_map, List.map_map]
    have hf : List.filter (catDl ∘ fun e => (process_single_torrent e).result) items =
        List.filter ((fun tr => tr.status == Status.downloaded) ∘ process_single_torrent)
          items :=
      List.filter_congr (fun e he => by
        simp only [Function.comp_apply]
        rw [(classify_of_run e (h e he)).1])
    rw [hf]
    exact List.Perm.refl _
  · rw [hfls]
    refine (List.perm_insertionSort _ _).trans ?_
    rw [List.filter_map, List.map_map, List.filter_map, List.map_map]
    rfl

/-- Witness for C7: the amended statement at a concrete batch. -/
theorem claim7_report_amended_witness :
    (process_torrents [envGood, envUntitled]).success_count =
      ([envGood, envUntitled].map process_single_torrent).countP
        (fun tr => tr.status == Status.downloaded) :=
  (claim7_report_amended [envGood, envUntitled] (by decide)).1

/-! ## Claim C6 — the extractor on well-formed `Title (YYYY)` names -/

/-- An ordinary title character: ASCII (ruling out the non-ASCII decimal
digits that Python's `\d` accepts but `Char.isDigit` does not), not a digit,
not an opening bracket, not a dot, not whitespace. -/
def titleChar (c : Char) : Bool :=
  c.toNat < 128 && !c.isDigit && c ≠ '(' && c ≠ '[' && c ≠ '.' && !(isPySpace c)

/-- The cleaned title the extractor produces for a well-formed name: strip,
remove tags, strip again. -/
def cleanTitle (t : String) : String := String.mk (pyStrip (pySubTags (pyStrip t.data)))

lemma titleChar_spec (c : Char) (h : titleChar c = true) :
    c.isDigit = false ∧ c ≠ '(' ∧ c ≠ '[' ∧ c ≠ '.' ∧ isPySpace c = false := by
  simp only [titleChar, Bool.and_eq_true, Bool.not_eq_true', decide_eq_true_eq] at h
  exact ⟨h.1.1.1.1.2, h.1.1.1.2, h.1.1.2, h.1.2, h.2⟩

lemma digit_ne_dot (c : Char) (h : c.isDigit = true) : c ≠ '.' := by
  intro he
  subst he
  exact absurd h (by decide)

lemma string_mk_data (s : String) : String.mk s.data = s := by
  cases s
  rfl

lemma list_length_four (l : List Char) (h : l.length = 4) :
    ∃ a b c d, l = [a, b, c, d] := by
  rcases l with _ | ⟨a, _ | ⟨b, _ | ⟨c, _ | ⟨d, _ | ⟨e, r⟩⟩⟩⟩⟩ <;>
    first
    | exact ⟨a, b, c, d, rfl⟩
    | simp at h

lemma dropWhile_all (p : Char → Bool) : ∀ (l : List Char),
    (∀ c ∈ l, p c = true) → l.dropWhile p = [] := by
  intro l
  induction l with
  | nil => intro _; rfl
  | cons c rest ih =>
    intro h
    rw [List.dropWhile_cons_of_pos (h c (List.mem_cons_self c rest))]
    exact ih (fun x hx => h x (List.mem_cons_of_mem c hx))

lemma dropWhile_nil_all (p : Char → Bool) : ∀ (l : List Char),
    l.dropWhile p = [] → ∀ c ∈ l, p c = true := by
  intro l
  induction l with
  | nil => intro _ c hc; cases hc
  | cons x rest ih =>
    intro h c hc
    by_cases hx : p x = true
    · rw [List.dropWhile_cons_of_pos hx] at h
      rcases List.mem_cons.mp hc with rfl | hc'
      · exact hx
      · exact ih h c hc'
    · rw [List.dropWhile_cons_of_neg (by simp [Bool.not_eq_true] at hx ⊢; exact hx)] at h
      cases h

lemma dropWhile_append_all (p : Char → Bool) (l1 l2 : List Char)
    (h : ∀ c ∈ l1, p c = true) :
    (l1 ++ l2).dropWhile p = l2.dropWhile p := by
  induction l1 with
  | nil => rfl
  | cons c rest ih =>
    rw [List.cons_append, List.dropWhile_cons_of_pos (h c (List.mem_cons_self c rest))]
    exact ih (fun x hx => h x (List.mem_cons_of_mem c hx))

lemma dropWhile_append_stop (p : Char → Bool) (l1 l2 : List Char)
    (h : ∃ c ∈ l1, p c = false) :
    (l1 ++ l2).dropWhile p = l1.dropWhile p ++ l2 := by
  induction l1 with
  | nil =>
    rcases h with ⟨c, hc, _⟩
    cases hc
  | cons c rest ih =>
    by_cases hc : p c = true
    · rw [List.cons_append, List.dropWhile_cons_of_pos hc, List.dropWhile_cons_of_pos hc]
      apply ih
      rcases h with ⟨e, he, hep⟩
      rcases List.mem_cons.mp he with rfl | he'
      · rw [hc] at hep
        cases hep
      · exact ⟨e, he', hep⟩
    · rw [List.cons_append, List.dropWhile_cons_of_neg hc, List.dropWhile_cons_of_neg hc]
      rfl

lemma dropWhile_head_neg (p : Char → Bool) : ∀ (l : List Char) (d : Char) (R : List Char),
    l.dropWhile p = d :: R → p d = false := by
  intro l
  induction l with
  | nil => intro d R h; cases h
  | cons c rest ih =>
    intro d R h
    by_cases hc : p c = true
    · rw [List.dropWhile_cons_of_pos hc] at h
      exact ih d R h
    · rw [List.dropWhile_cons_of_neg hc] at h
      cases h
      exact Bool.not_eq_true _ |>.mp hc

lemma rstripSp_all_space (l : List Char) (h : ∀ c ∈ l, isPySpace c = true) :
    rstripSp l = [] := by
  unfold rstripSp
  rw [dropWhile_all _ _ (fun c hc => h c (List.mem_reverse.mp hc))]
  rfl

lemma rstripSp_cons_of (c : Char) (l : List Char)
    (h : isPySpace c = false ∨ ∃ d ∈ l, isPySpace d = false) :
    rstripSp (c :: l) = c :: rstripSp l := by
  unfold rstripSp
  rw [List.reverse_cons]
  by_cases hall : ∀ x ∈ l.reverse, isPySpace x = true
  · have hc : isPySpace c = false := by
      rcases h with h | ⟨d, hd, hdp⟩
      · exact h
      · exact absurd (hall d (List.mem_reverse.mpr hd)) (by simp [hdp])
    rw [dropWhile_append_all _ _ _ hall,
      List.dropWhile_cons_of_neg (by simp [hc]), dropWhile_all _ _ hall]
    rfl
  · push_neg at hall
    rcases hall with ⟨d, hd, hdp⟩
    rw [dropWhile_append_stop _ _ _ ⟨d, hd, by simpa using hdp⟩]
    simp

lemma dropWhile_dropWhile_append (p : Char → Bool) (x : Char) : ∀ (u : List Char),
    (u.dropWhile p ++ [x]).dropWhile p = (u ++ [x]).dropWhile p := by
  intro u
  induction u with
  | nil => rfl
  | cons c rest ih =>
    by_cases hc : p c = true
    · rw [List.dropWhile_cons_of_pos hc, List.cons_append, List.dropWhile_cons_of_pos hc, ih]
    · rw [List.dropWhile_cons_of_neg hc]

lemma rstripSp_cons_rstripSp (x : Char) (l : List Char) :
    rstripSp (x :: rstripSp l) = rstripSp (x :: l) := by
  unfold rstripSp
  rw [List.reverse_cons, List.reverse_cons, List.reverse_reverse,
    dropWhile_dropWhile_append]

lemma pyStrip_cons_rstripSp (x : Char) (l : List Char) :
    pyStrip (x :: rstripSp l) = pyStrip (x :: l) := by
  unfold pyStrip
  rw [rstripSp_cons_rstripSp]

lemma tailMatch_found (sp : List Char) (hsp : ∀ c ∈ sp, isPySpace c = true)
    (a b c d : Char) (ha : a.isDigit = true) (hb : b.isDigit = true)
    (hc : c.isDigit = true) (hd4 : d.isDigit = true) (tail : List Char) :
    tailMatch (sp ++ '(' :: a :: b :: c :: d :: tail) = some [a, b, c, d] := by
  unfold tailMatch
  rw [dropWhile_append_all _ _ _ hsp, List.dropWhile_cons_of_neg (by decide)]
  simp [ha, hb, hc, hd4]

lemma tailMatch_none_of_dropWhile (l : List Char) (d : Char) (R : List Char)
    (hd : l.dropWhile isPySpace = d :: R)
    (h1 : d ≠ '(') (h2 : d ≠ '[') (h3 : d.isDigit = false) :
    tailMatch l = none := by
  unfold tailMatch
  rw [hd]
  dsimp only
  split
  · next a' b' c' e' r' heq =>
    split at heq
    · next r2 heq2 =>
      injection heq2 with hh _
      exact absurd hh h1
    · next r2 heq2 =>
      injection heq2 with hh _
      exact absurd hh h2
    · injection heq with hh _
      rw [← hh, h3]
      simp
  · rfl

lemma goSearch_main (a b c d : Char) (ha : a.isDigit = true) (hb : b.isDigit = true)
    (hc : c.isDigit = true) (hd4 : d.isDigit = true) (tail : List Char) :
    ∀ (Tb acc : List Char), (∀ x ∈ Tb, x = ' ' ∨ titleChar x = true) →
      goSearch acc (Tb ++ ' ' :: '(' :: a :: b :: c :: d :: tail) =
        some (acc.reverse ++ rstripSp Tb, [a, b, c, d]) := by
  intro Tb
  induction Tb with
  | nil =>
    intro acc _
    have ht : tailMatch (' ' :: '(' :: a :: b :: c :: d :: tail) = some [a, b, c, d] :=
      tailMatch_found [' '] (by decide) a b c d ha hb hc hd4 tail
    show goSearch acc (' ' :: '(' :: a :: b :: c :: d :: tail) = _
    unfold goSearch
    rw [ht]
    simp [rstripSp]
  | cons x Tb' ih =>
    intro acc hx
    have hx0 := hx x (List.mem_cons_self x Tb')
    have hTb' : ∀ u ∈ Tb', u = ' ' ∨ titleChar u = true :=
      fun u hu => hx u (List.mem_cons_of_mem x hu)
    rw [List.cons_append]
    by_cases hall : ∀ u ∈ x :: Tb', isPySpace u = true
    · have ht : tailMatch (x :: (Tb' ++ ' ' :: '(' :: a :: b :: c :: d :: tail)) =
          some [a, b, c, d] := by
        have he : x :: (Tb' ++ ' ' :: '(' :: a :: b :: c :: d :: tail) =
            ((x :: Tb') ++ [' ']) ++ '(' :: a :: b :: c :: d :: tail := by
          simp
        rw [he]
        refine tailMatch_found _ ?_ a b c d ha hb hc hd4 tail
        intro u hu
        rcases List.mem_append.mp hu with hu | hu
        · exact hall u hu
        · simp at hu
          subst hu
          rfl
      unfold goSearch
      rw [ht, rstripSp_all_space _ hall]
      simp
    · push_neg at hall
      rcases hall with ⟨u, hu, hup⟩
      have hstop : ∃ w ∈ x :: Tb', isPySpace w = false := ⟨u, hu, by simpa using hup⟩
      have hne : (x :: Tb').dropWhile isPySpace ≠ [] := by
        intro he
        rcases hstop with ⟨w, hw, hwp⟩
        rw [dropWhile_nil_all _ _ he w hw] at hwp
        cases hwp
      obtain ⟨w, R, hwR⟩ := List.exists_cons_of_ne_nil hne
      have hw_nonspace : isPySpace w = false := dropWhile_head_neg _ _ _ _ hwR
      have hw_mem : w ∈ x :: Tb' :=
        (List.dropWhile_sublist _).subset (hwR ▸ List.mem_cons_self w R)
      have hw_title : titleChar w = true := by
        rcases hx w hw_mem with rfl | h
        · exact absurd hw_nonspace (by decide)
        · exact h
      obtain ⟨hwd, hw1, hw2, _, _⟩ := titleChar_spec w hw_title
      have ht : tailMatch (x :: (Tb' ++ ' ' :: '(' :: a :: b :: c :: d :: tail)) = none := by
        refine tailMatch_none_of_dropWhile _ w
          (R ++ ' ' :: '(' :: a :: b :: c :: d :: tail) ?_ hw1 hw2 hwd
        rw [← List.cons_append,
          dropWhile_append_stop _ _ _ hstop, hwR, List.cons_append]
      have hxnl : x ≠ '\n' := by
        rcases hx0 with rfl | h
        · decide
        · intro he
          subst he
          exact absurd (titleChar_spec _ h).2.2.2.2 (by decide)
      unfold goSearch
      rw [ht, if_neg hxnl, ih (x :: acc) hTb']
      have hr : rstripSp (x :: Tb') = x :: rstripSp Tb' := by
        refine rstripSp_cons_of x Tb' ?_
        rcases hx0 with rfl | h
        · rcases List.mem_cons.mp hu with rfl | hu'
          · exact absurd (by simpa using hup) (by decide)
          · exact Or.inr ⟨u, hu', by simpa using hup⟩
        · exact Or.inl (titleChar_spec _ h).2.2.2.2
      rw [hr, List.reverse_cons]
      simp

lemma searchTitleYear_structured (T : List Char)
    (hT : ∀ x ∈ T, x = ' ' ∨ titleChar x = true)
    (a b c d : Char) (ha : a.isDigit = true) (hb : b.isDigit = true)
    (hc : c.isDigit = true) (hd4 : d.isDigit = true) (tail : List Char) :
    ∃ g1, searchTitleYear (T ++ ' ' :: '(' :: a :: b :: c :: d :: tail) =
        some (g1, [a, b, c, d]) ∧ pyStrip g1 = pyStrip T := by
  cases T with
  | nil =>
    refine ⟨[' '], ?_, by decide⟩
    have ht : tailMatch ('(' :: a :: b :: c :: d :: tail) = some [a, b, c, d] :=
      tailMatch_found [] (by simp) a b c d ha hb hc hd4 tail
    show searchTitleYear (' ' :: '(' :: a :: b :: c :: d :: tail) = _
    show (if ' ' = '\n' then none
      else goSearch [' '] ('(' :: a :: b :: c :: d :: tail)) = _
    rw [if_neg (by decide)]
    unfold goSearch
    rw [ht]
    rfl
  | cons x T' =>
    have hx0 := hT x (List.mem_cons_self x T')
    have hT' : ∀ u ∈ T', u = ' ' ∨ titleChar u = true :=
      fun u hu => hT u (List.mem_cons_of_mem x hu)
    have hxnl : x ≠ '\n' := by
      rcases hx0 with rfl | h
      · decide
      · intro he
        subst he
        exact absurd (titleChar_spec _ h).2.2.2.2 (by decide)
    refine ⟨x :: rstripSp T', ?_, pyStrip_cons_rstripSp x T'⟩
    rw [List.cons_append]
    show (if x = '\n' then none
      else goSearch [x] (T' ++ ' ' :: '(' :: a :: b :: c :: d :: tail)) = _
    rw [if_neg hxnl, goSearch_main a b c d ha hb hc hd4 tail T' [x] hT']
    rfl

/-- C6 counterexample: a title containing its own four-digit run breaks the
claim — the lazy group of the year regex stops at the earliest four-digit
run, so `Blade Runner 2049 (2017).torrent` yields `("Blade Runner", "2049")`,
not the claimed `("Blade Runner 2049", "2017")`. -/
theorem claim6_digit_title_cx :
    extract_movie_info "Blade Runner 2049 (2017).torrent" =
      some ("Blade Runner", "2049") ∧
    extract_movie_info "Blade Runner 2049 (2017).torrent" ≠
      some ("Blade Runner 2049", "2017") := by decide

/-- C6 amended: the extraction contract holds on the digit-free fragment: for
every filename of the form `Title (YYYY)` followed by an arbitrary suffix —
where the title consists of spaces and ordinary ASCII characters (no digits,
opening brackets, dots, or whitespace other than the space character) and the
year is four digits — the extractor returns the stripped, tag-cleaned title
together with the year string.  A title containing its own four-digit run
instead has that run taken as the year (see the counterexample). -/
theorem claim6_extractor_amended (t y s : String)
    (ht : ∀ x ∈ t.data, x = ' ' ∨ titleChar x = true)
    (hy4 : y.data.length = 4) (hyd : y.data.all Char.isDigit = true) :
    extract_movie_info (t ++ " (" ++ y ++ ")" ++ s) = some (cleanTitle t, y) := by
  obtain ⟨a, b, c, d, hy⟩ := list_length_four y.data hy4
  rw [hy] at hyd
  simp only [List.all_cons, List.all_nil, Bool.and_eq_true, Bool.and_true] at hyd
  obtain ⟨ha, hb, hc, hd4⟩ := hyd
  have h1 : (t ++ " (" ++ y ++ ")" ++ s).data =
      (t.data ++ ' ' :: '(' :: a :: b :: c :: d :: [')']) ++ s.data := by
    rw [String.data_append, String.data_append, String.data_append, String.data_append, hy,
      show (" (" : String).data = [' ', '('] from rfl,
      show (")" : String).data = [')'] from rfl]
    simp
  have hdotfree : ∀ x ∈ t.data ++ ' ' :: '(' :: a :: b :: c :: d :: [')'], x ≠ '.' := by
    intro x hx
    rcases List.mem_append.mp hx with hx | hx
    · rcases ht x hx with rfl | h
      · decide
      · exact (titleChar_spec _ h).2.2.2.1
    · simp only [List.mem_cons] at hx
      rcases hx with rfl | rfl | rfl | rfl | rfl | rfl | rfl | h0
      · decide
      · decide
      · exact digit_ne_dot _ ha
      · exact digit_ne_dot _ hb
      · exact digit_ne_dot _ hc
      · exact digit_ne_dot _ hd4
      · decide
      · cases h0
  have hstrip : removeTorrent (t ++ " (" ++ y ++ ")" ++ s).data =
      t.data ++ ' ' :: '(' :: a :: b :: c :: d :: ')' :: removeTorrent s.data := by
    rw [h1, removeTorrent_dotfree_append _ _ hdotfree]
    simp
  obtain ⟨g1, hsearch, hstrip2⟩ :=
    searchTitleYear_structured t.data ht a b c d ha hb hc hd4 (')' :: removeTorrent s.data)
  unfold extract_movie_info
  rw [hstrip, hsearch]
  dsimp only
  rw [hstrip2]
  have hmk : String.mk [a, b, c, d] = y := by
    rw [← hy]
  rw [hmk]
  rfl

/-- Witness for C6: the spec's own example. -/
theorem claim6_extractor_amended_witness :
    extract_movie_info "Inception (2010) 1080p BluRay YTS.MX.torrent" =
      some ("Inception", "2010") := by
  have h := claim6_extractor_amended "Inception" "2010" " 1080p BluRay YTS.MX.torrent"
    (by decide) (by decide) (by decide)
  rw [show ("Inception" ++ " (" ++ "2010" ++ ")" ++ " 1080p BluRay YTS.MX.torrent" : String) =
    "Inception (2010) 1080p BluRay YTS.MX.torrent" from by decide] at h
  rw [show cleanTitle "Inception" = "Inception" from by decide] at h
  exact h

end PosterFetcher
